import Mathlib

/-!
Shallow embedding of the Sui gas-price monitor (src/main.py together with
src/utils/args.py) and verification of its specification.

Numbers: Python ints become ℤ, prices (Python floats carrying exact decimal
quotes) become ℚ with exact arithmetic, and Python's builtin `round`
(round-half-to-even) becomes `roundHalfEven`.  Fallible Python code
(a raised exception) becomes `Option`: `none` is the raised exception.
External calls (the CoinMarketCap price fetch, the RPC epoch fetch, the
`sui validator update-gas-price` subprocess) are inputs to each decision
cycle: an `Option`/`Bool` oracle value standing for the collaborator's
response in that cycle.
-/

namespace SuiGas

/-- Round half to even (banker's rounding) on an exact rational, modelling
Python's builtin `round(x)` used at src/main.py line 92. -/
def roundHalfEven (q : ℚ) : ℤ :=
  if q - ⌊q⌋ < 1/2 then ⌊q⌋
  else if 1/2 < q - ⌊q⌋ then ⌊q⌋ + 1
  else if ⌊q⌋ % 2 = 0 then ⌊q⌋ else ⌊q⌋ + 1

/-- `calculate_new_mist` from src/main.py lines 89-93:
`price_ratio = reference_price / current_price`;
`calculated_mist = round(reference_mist * price_ratio)`;
`return min(calculated_mist, 1000)`.
Python raises `ZeroDivisionError` exactly when `current_price` is zero,
modelled as `none`; any nonzero `current_price` (negative included)
produces a numeric result. -/
def calculate_new_mist (current_price reference_price : ℚ)
    (reference_mist : ℤ) : Option ℤ :=
  if current_price = 0 then none
  else
    some (min (roundHalfEven ((reference_mist : ℚ) *
      (reference_price / current_price))) 1000)

/- Basic facts about `roundHalfEven`. -/

theorem roundHalfEven_ge_floor (q : ℚ) : ⌊q⌋ ≤ roundHalfEven q := by
  unfold roundHalfEven
  split_ifs <;> omega

theorem roundHalfEven_le_floor_add_one (q : ℚ) :
    roundHalfEven q ≤ ⌊q⌋ + 1 := by
  unfold roundHalfEven
  split_ifs <;> omega

theorem roundHalfEven_intCast (k : ℤ) : roundHalfEven (k : ℚ) = k := by
  unfold roundHalfEven
  have h : ⌊(k : ℚ)⌋ = k := Int.floor_intCast k
  rw [h]
  have h2 : (k : ℚ) - (k : ℚ) = 0 := by ring
  rw [h2]
  norm_num

theorem roundHalfEven_nonneg {q : ℚ} (hq : 0 ≤ q) : 0 ≤ roundHalfEven q := by
  have h := roundHalfEven_ge_floor q
  have h2 : (0 : ℤ) ≤ ⌊q⌋ := Int.floor_nonneg.mpr hq
  omega

theorem roundHalfEven_mono {x y : ℚ} (hxy : x ≤ y) :
    roundHalfEven x ≤ roundHalfEven y := by
  have hf : ⌊x⌋ ≤ ⌊y⌋ := Int.floor_le_floor hxy
  rcases lt_or_eq_of_le hf with hlt | heq
  · calc roundHalfEven x ≤ ⌊x⌋ + 1 := roundHalfEven_le_floor_add_one x
      _ ≤ ⌊y⌋ := by omega
      _ ≤ roundHalfEven y := roundHalfEven_ge_floor y
  · have hfx : (⌊x⌋ : ℚ) = (⌊y⌋ : ℚ) := by rw [heq]
    have hfrac : x - ⌊x⌋ ≤ y - ⌊y⌋ := by rw [hfx]; linarith
    unfold roundHalfEven
    rw [heq] at *
    split_ifs <;> first | omega | linarith

/-!
The decision cycle.  `process_updates` (src/main.py lines 119-176) reads
the chain state, skips if the epoch was already handled, and when less
than one hour remains fetches a price, converts it and invokes the
submission subprocess; every exception inside the cycle is caught by the
`try`/`except` at lines 123/175, so the cycle always returns.
-/

/-- The slice of the RPC system state that `process_updates` consumes:
`current_epoch` and `remaining_ms` as computed by `get_epoch_info`
(src/main.py lines 50-87). -/
structure EpochInfo where
  current_epoch : ℤ
  remaining_ms : ℤ
deriving DecidableEq, Repr

/-- Startup configuration (src/utils/args.py): the reference token price
and reference gas price anchors. -/
structure Config where
  refPrice : ℚ
  refGas : ℤ
deriving DecidableEq

/-- One decision cycle's view of the external collaborators:
`epochFetch` is the outcome of `get_epoch_info` (`none` = the fetch
raised), `priceFetch` the outcome of `get_current_sui_price`
(`none` = the fetch raised), and `submitResult` the boolean that
`update_validator_gas_price` would return if invoked
(it returns `result.returncode == 0` and catches its own exceptions,
src/main.py lines 95-117). -/
structure CycleInput where
  epochFetch : Option EpochInfo
  priceFetch : Option ℚ
  submitResult : Bool
deriving DecidableEq

/-- How a single call of `process_updates` ended. -/
inductive Outcome where
  | epochFetchFailed
  | skipped
  | notDue
  | priceFetchFailed
  | convFailed
  | submitted (success : Bool) (mist : ℤ)
deriving DecidableEq, Repr

/-- `true` exactly on the outcomes in which the submission subprocess was
invoked (the only branch of src/main.py lines 119-176 that calls
`update_validator_gas_price`). -/
def submissionAttempted : Outcome → Bool
  | .submitted _ _ => true
  | _ => false

/-- `true` exactly on the outcomes in which `get_current_sui_price` was
called (the branch of src/main.py line 145 was reached). -/
def priceFetchAttempted : Outcome → Bool
  | .submitted _ _ => true
  | .priceFetchFailed => true
  | .convFailed => true
  | _ => false

/-- The update window test at src/main.py line 144:
`remaining_ms < 60 * 60 * 1000`. -/
def is_due (remaining_ms : ℤ) : Bool := remaining_ms < 60 * 60 * 1000

/-- `process_updates` from src/main.py lines 119-176, as a function of the
previous `LAST_UPDATED_EPOCH` value and the cycle's collaborator
responses; returns the new `LAST_UPDATED_EPOCH` and the outcome.
Exceptions raised by `get_epoch_info`, `get_current_sui_price` or the
`ZeroDivisionError` of `calculate_new_mist` land in the `except` at
line 175, leaving the state untouched. -/
def process_updates (cfg : Config) (last : Option ℤ) (inp : CycleInput) :
    Option ℤ × Outcome :=
  match inp.epochFetch with
  | none => (last, .epochFetchFailed)
  | some info =>
    if last = some info.current_epoch then (last, .skipped)
    else if is_due info.remaining_ms then
      match inp.priceFetch with
      | none => (last, .priceFetchFailed)
      | some p =>
        match calculate_new_mist p cfg.refPrice cfg.refGas with
        | none => (last, .convFailed)
        | some mist =>
          if inp.submitResult then (some info.current_epoch, .submitted true mist)
          else (last, .submitted false mist)
    else (last, .notDue)

/-- The scheduler loop of `main` (src/main.py lines 187-196) running one
`process_updates` call per tick over a list of cycle inputs, threading
`LAST_UPDATED_EPOCH`; returns the final state and one outcome per tick
(the loop never terminates on a cycle's error). -/
def runCycles (cfg : Config) : Option ℤ → List CycleInput →
    Option ℤ × List Outcome
  | last, [] => (last, [])
  | last, inp :: rest =>
    let r := process_updates cfg last inp
    let rest' := runCycles cfg r.1 rest
    (rest'.1, r.2 :: rest'.2)

/-!  Claims about the numeric converter. -/

/-- C3: for every positive current price, positive reference price and
positive reference fee, `calculate_new_mist` succeeds and returns a
non-negative integer that is at most 1000. -/
theorem c3_output_bounded (p r : ℚ) (f : ℤ)
    (hp : 0 < p) (hr : 0 < r) (hf : 0 < f) :
    ∃ v, calculate_new_mist p r f = some v ∧ 0 ≤ v ∧ v ≤ 1000 := by
  have hp0 : p ≠ 0 := ne_of_gt hp
  unfold calculate_new_mist
  rw [if_neg hp0]
  refine ⟨_, rfl, ?_, min_le_right _ _⟩
  have hq : (0 : ℚ) ≤ (f : ℚ) * (r / p) := by positivity
  exact le_min (roundHalfEven_nonneg hq) (by norm_num)

/-- Witness for C3 at `p = 1/2`, `r = 1`, `f = 1000`. -/
theorem c3_witness :
    ∃ v, calculate_new_mist (1/2) 1 1000 = some v ∧ 0 ≤ v ∧ v ≤ 1000 :=
  c3_output_bounded (1/2) 1 1000 (by norm_num) (by norm_num) (by norm_num)

/-- C4 counterexample: called with the negative current price `-1`,
`calculate_new_mist` does not fail; it returns the numeric result
`-1000`. -/
theorem c4_counterexample :
    calculate_new_mist (-1) 1 1000 = some (-1000) ∧
    calculate_new_mist (-1) 1 1000 ≠ none := by
  have h : calculate_new_mist (-1) 1 1000 = some (-1000) := by
    norm_num [calculate_new_mist, roundHalfEven]
  exact ⟨h, by rw [h]; simp⟩

/-- C4 amended: with a current price of exactly zero the converter fails
(Python's `ZeroDivisionError`, modelled as `none`); every negative
current price is not rejected and yields a numeric (possibly negative)
result. -/
theorem c4_zero_price_fails (p r : ℚ) (f : ℤ) (hp : p < 0) :
    calculate_new_mist 0 r f = none ∧
    ∃ v, calculate_new_mist p r f = some v := by
  refine ⟨by simp [calculate_new_mist], ?_⟩
  unfold calculate_new_mist
  rw [if_neg (ne_of_lt hp)]
  exact ⟨_, rfl⟩

/-- Witness for C4's amended statement at `p = -1`. -/
theorem c4_witness :
    calculate_new_mist 0 1 1000 = none ∧
    ∃ v, calculate_new_mist (-1) 1 1000 = some v :=
  c4_zero_price_fails (-1) 1 1000 (by norm_num)

/-- C6: for fixed positive reference price and positive reference fee,
`calculate_new_mist` is monotonically non-increasing in the current
price. -/
theorem c6_monotone (p1 p2 r : ℚ) (f : ℤ) (v1 v2 : ℤ)
    (hp1 : 0 < p1) (h12 : p1 ≤ p2) (hr : 0 < r) (hf : 0 < f)
    (h1 : calculate_new_mist p1 r f = some v1)
    (h2 : calculate_new_mist p2 r f = some v2) : v2 ≤ v1 := by
  have hp2 : 0 < p2 := lt_of_lt_of_le hp1 h12
  unfold calculate_new_mist at h1 h2
  rw [if_neg (ne_of_gt hp1)] at h1
  rw [if_neg (ne_of_gt hp2)] at h2
  obtain rfl := (Option.some.inj h1).symm
  obtain rfl := (Option.some.inj h2).symm
  have hratio : r / p2 ≤ r / p1 := by gcongr
  have hmul : (f : ℚ) * (r / p2) ≤ (f : ℚ) * (r / p1) := by
    apply mul_le_mul_of_nonneg_left hratio
    exact_mod_cast le_of_lt hf
  exact min_le_min (roundHalfEven_mono hmul) (le_refl _)

/-- Witness for C6 at `p1 = 2`, `p2 = 4`, `r = 2`, `f = 500`. -/
theorem c6_witness :
    (250 : ℤ) ≤ 500 :=
  c6_monotone 2 4 2 500 500 250 (by norm_num) (by norm_num) (by norm_num)
    (by norm_num)
    (by norm_num [calculate_new_mist, roundHalfEven])
    (by norm_num [calculate_new_mist, roundHalfEven])

/-- C7: identity up to the ceiling — for every positive price `p` and
positive fee `f`, `calculate_new_mist p p f = min f 1000`. -/
theorem c7_identity_up_to_ceiling (p : ℚ) (f : ℤ)
    (hp : 0 < p) (hf : 0 < f) :
    calculate_new_mist p p f = some (min f 1000) := by
  have hp0 : p ≠ 0 := ne_of_gt hp
  unfold calculate_new_mist
  rw [if_neg hp0, div_self hp0, mul_one, roundHalfEven_intCast]

/-- Witness for C7 at `p = 3/2`, `f = 1500` (clamped to 1000). -/
theorem c7_witness :
    calculate_new_mist (3/2) (3/2) 1500 = some (min 1500 1000) :=
  c7_identity_up_to_ceiling (3/2) 1500 (by norm_num) (by norm_num)

/-- C10: the converter rounds half to even — at any exact half-integer,
`roundHalfEven` returns the even neighbour, and in particular
`calculate_new_mist 2 1 5` (product exactly 2.5) returns 2, not 3. -/
theorem c10_banker_rounding :
    (∀ k : ℤ, roundHalfEven ((k : ℚ) + 1/2) =
      if k % 2 = 0 then k else k + 1) ∧
    calculate_new_mist 2 1 5 = some 2 := by
  constructor
  · intro k
    have hf : ⌊(k : ℚ) + 1/2⌋ = k := by
      rw [Int.floor_int_add]
      norm_num
    unfold roundHalfEven
    rw [hf]
    have hfr : (k : ℚ) + 1/2 - k = 1/2 := by ring
    rw [hfr]
    simp
  · norm_num [calculate_new_mist, roundHalfEven]

/-!  Claims about the decision cycle and the scheduler loop. -/

/-- C1: once `LAST_UPDATED_EPOCH` is `E`, every cycle observing epoch `E`
returns `skipped`, leaves the state at `E`, and takes neither the price
fetch nor the submission path. -/
theorem c1_at_most_once_per_epoch (cfg : Config) (E : ℤ)
    (inputs : List CycleInput)
    (h : ∀ i ∈ inputs, ∃ info, i.epochFetch = some info ∧
      info.current_epoch = E) :
    runCycles cfg (some E) inputs =
      (some E, inputs.map fun _ => Outcome.skipped) ∧
    priceFetchAttempted .skipped = false ∧
    submissionAttempted .skipped = false := by
  refine ⟨?_, rfl, rfl⟩
  induction inputs with
  | nil => rfl
  | cons i rest ih =>
    obtain ⟨info, hfetch, hE⟩ := h i (List.mem_cons_self _ _)
    have hproc : process_updates cfg (some E) i = (some E, .skipped) := by
      simp [process_updates, hfetch, hE]
    have ih' := ih fun j hj => h j (List.mem_cons_of_mem _ hj)
    simp [runCycles, hproc, ih']

/-- Witness for C1: state `some 3`, two cycles observing epoch 3. -/
theorem c1_witness :
    runCycles ⟨1, 1000⟩ (some 3)
      [⟨some ⟨3, 0⟩, none, false⟩, ⟨some ⟨3, 50⟩, some 1, true⟩] =
      (some 3, [Outcome.skipped, Outcome.skipped]) ∧
    priceFetchAttempted .skipped = false ∧
    submissionAttempted .skipped = false :=
  c1_at_most_once_per_epoch ⟨1, 1000⟩ 3
    [⟨some ⟨3, 0⟩, none, false⟩, ⟨some ⟨3, 50⟩, some 1, true⟩]
    (by
      intro i hi
      fin_cases hi
      · exact ⟨⟨3, 0⟩, rfl, rfl⟩
      · exact ⟨⟨3, 50⟩, rfl, rfl⟩)

/-- C2: `LAST_UPDATED_EPOCH` is advanced (to the observed epoch) exactly
when the submission subprocess reports success; on any other outcome —
submission failure included — the state is unchanged, so the next tick in
the same epoch retries. -/
theorem c2_advance_iff_success (cfg : Config) (last : Option ℤ)
    (inp : CycleInput) (last' : Option ℤ) (out : Outcome)
    (h : process_updates cfg last inp = (last', out)) :
    ((∃ m, out = .submitted true m) →
      ∃ info, inp.epochFetch = some info ∧
        last' = some info.current_epoch) ∧
    ((∀ m, out ≠ .submitted true m) → last' = last) := by
  unfold process_updates at h
  cases hef : inp.epochFetch with
  | none =>
    simp only [hef] at h
    cases h
    exact ⟨fun ⟨m, hm⟩ => (nomatch hm), fun _ => rfl⟩
  | some info =>
    simp only [hef] at h
    by_cases hskip : last = some info.current_epoch
    · rw [if_pos hskip] at h
      cases h
      exact ⟨fun ⟨m, hm⟩ => (nomatch hm), fun _ => rfl⟩
    · rw [if_neg hskip] at h
      by_cases hdue : is_due info.remaining_ms = true
      · rw [if_pos hdue] at h
        cases hpf : inp.priceFetch with
        | none =>
          simp only [hpf] at h
          cases h
          exact ⟨fun ⟨m, hm⟩ => (nomatch hm), fun _ => rfl⟩
        | some p =>
          simp only [hpf] at h
          cases hcm : calculate_new_mist p cfg.refPrice cfg.refGas with
          | none =>
            simp only [hcm] at h
            cases h
            exact ⟨fun ⟨m, hm⟩ => (nomatch hm), fun _ => rfl⟩
          | some mist =>
            simp only [hcm] at h
            by_cases hs : inp.submitResult = true
            · rw [if_pos hs] at h
              cases h
              exact ⟨fun _ => ⟨info, rfl, rfl⟩,
                fun hall => absurd rfl (hall mist)⟩
            · rw [if_neg hs] at h
              cases h
              exact ⟨fun ⟨m, hm⟩ => (nomatch hm), fun _ => rfl⟩
      · rw [if_neg hdue] at h
        cases h
        exact ⟨fun ⟨m, hm⟩ => (nomatch hm), fun _ => rfl⟩

/-- Witness for C2: a due cycle whose submission succeeds advances the
state from `none` to `some 4`. -/
theorem c2_witness :
    ((∃ m, Outcome.submitted true 1000 = Outcome.submitted true m) →
      ∃ info, (⟨some ⟨4, 100⟩, some 1, true⟩ : CycleInput).epochFetch =
        some info ∧ (some 4 : Option ℤ) = some info.current_epoch) ∧
    ((∀ m, Outcome.submitted true 1000 ≠ Outcome.submitted true m) →
      (some 4 : Option ℤ) = some 9) :=
  c2_advance_iff_success ⟨1, 1000⟩ (some 9) ⟨some ⟨4, 100⟩, some 1, true⟩
    (some 4) (.submitted true 1000)
    (by norm_num [process_updates, calculate_new_mist, roundHalfEven, is_due])

/-- C5 counterexample: cycle 1 fetches price 1 successfully and submits;
in cycle 2 the fresh fetch fails while a previously fetched quote exists,
yet the cycle ends in `priceFetchFailed` with no submission — the code
keeps no fallback cache, contradicting the claimed degraded path. -/
theorem c5_counterexample :
    runCycles ⟨1, 1000⟩ (some 0)
      [⟨some ⟨1, 100⟩, some 1, true⟩, ⟨some ⟨2, 100⟩, none, true⟩] =
      (some 1, [Outcome.submitted true 1000, Outcome.priceFetchFailed]) ∧
    submissionAttempted Outcome.priceFetchFailed = false := by
  norm_num [runCycles, process_updates, calculate_new_mist, roundHalfEven,
    is_due, submissionAttempted]

/-- C5 amended: whenever the fresh price fetch fails in a due,
not-yet-handled cycle, the cycle ends with `priceFetchFailed`, no
submission and an unchanged `LAST_UPDATED_EPOCH`, regardless of any
earlier successful fetch — there is no fallback cache. -/
theorem c5_no_fallback (cfg : Config) (last : Option ℤ) (inp : CycleInput)
    (info : EpochInfo) (h1 : inp.epochFetch = some info)
    (h2 : last ≠ some info.current_epoch)
    (h3 : is_due info.remaining_ms = true) (h4 : inp.priceFetch = none) :
    process_updates cfg last inp = (last, .priceFetchFailed) ∧
    submissionAttempted .priceFetchFailed = false := by
  refine ⟨?_, rfl⟩
  unfold process_updates
  simp only [h1, h4, h3, if_true, if_neg h2]

/-- Witness for C5's amended statement. -/
theorem c5_witness :
    process_updates ⟨1, 1000⟩ (some 1) ⟨some ⟨2, 100⟩, none, true⟩ =
      ((some 1 : Option ℤ), Outcome.priceFetchFailed) ∧
    submissionAttempted .priceFetchFailed = false :=
  c5_no_fallback ⟨1, 1000⟩ (some 1) ⟨some ⟨2, 100⟩, none, true⟩ ⟨2, 100⟩
    rfl (by simp) (by decide) rfl

/-- C8: the update window boundary sits at exactly one hour —
`is_due 3600001 = false`, `is_due 3599999 = true`, `is_due` is exactly
`remaining_ms < 3600000`, and a not-yet-handled cycle observing
`remaining_ms = 3600001` ends in `notDue` (no pricing, no submission). -/
theorem c8_due_boundary :
    is_due 3600001 = false ∧ is_due 3599999 = true ∧
    (∀ r : ℤ, is_due r = true ↔ r < 3600000) ∧
    ∀ cfg last inp info, inp.epochFetch = some info →
      last ≠ some info.current_epoch → info.remaining_ms = 3600001 →
      process_updates cfg last inp = (last, .notDue) := by
  refine ⟨by decide, by decide, ?_, ?_⟩
  · intro r
    unfold is_due
    rw [decide_eq_true_eq]
    omega
  · intro cfg last inp info h1 h2 h3
    unfold process_updates
    simp only [h1, h3, if_neg h2]
    norm_num [is_due]

/-- Witness for C8's cycle-level conjunct at `remaining_ms = 3600001`. -/
theorem c8_witness :
    process_updates ⟨1, 1000⟩ (some 5) ⟨some ⟨7, 3600001⟩, none, false⟩ =
      ((some 5 : Option ℤ), Outcome.notDue) :=
  c8_due_boundary.2.2.2 ⟨1, 1000⟩ (some 5) ⟨some ⟨7, 3600001⟩, none, false⟩
    ⟨7, 3600001⟩ rfl (by simp) rfl

/-- C9: when the epoch fetch fails for any run of consecutive cycles, each
such cycle ends in `epochFetchFailed` with no submission, the state is
unchanged, and the loop still produces one outcome per tick. -/
theorem c9_epoch_fetch_failure_safe (cfg : Config) (last : Option ℤ)
    (inputs : List CycleInput) (h : ∀ i ∈ inputs, i.epochFetch = none) :
    runCycles cfg last inputs =
      (last, inputs.map fun _ => Outcome.epochFetchFailed) ∧
    submissionAttempted .epochFetchFailed = false := by
  refine ⟨?_, rfl⟩
  induction inputs with
  | nil => rfl
  | cons i rest ih =>
    have hfetch := h i (List.mem_cons_self _ _)
    have hproc : process_updates cfg last i = (last, .epochFetchFailed) := by
      unfold process_updates
      rw [hfetch]
    have ih' := ih fun j hj => h j (List.mem_cons_of_mem _ hj)
    simp [runCycles, hproc, ih']

/-- Witness for C9: two consecutive failed epoch fetches. -/
theorem c9_witness :
    runCycles ⟨1, 1000⟩ (some 2) [⟨none, some 1, true⟩, ⟨none, none, true⟩] =
      (some 2, [Outcome.epochFetchFailed, Outcome.epochFetchFailed]) ∧
    submissionAttempted .epochFetchFailed = false :=
  c9_epoch_fetch_failure_safe ⟨1, 1000⟩ (some 2)
    [⟨none, some 1, true⟩, ⟨none, none, true⟩]
    (by intro i hi; fin_cases hi <;> rfl)

end SuiGas
